import Mathlib

/-!
Verification development for `apitest.py`, a demo client that loads OPC-UA
tag node ids from a JSON file, issues REST read/write calls, and keeps a
WebSocket subscription alive with a fixed reconnect delay.

The embedding models Python/JSON values with the mutual inductive `Json`
(objects keep their fields in order; `json.load` yields objects with
pairwise-distinct keys, so first-match lookup agrees with `dict.get`).
File access and HTTP transport are abstracted as explicit inputs: a file is
`Option (Option Json)` (`none` = file missing, `some none` = present but not
valid JSON, `some (some v)` = parses to `v`), and an HTTP call's outcome is
an `HttpOutcome` value.  Functions that print keep their console output as an
explicit `List String`, and exceptions are `Except`.
-/

instance {ε α : Type} [DecidableEq ε] [DecidableEq α] : DecidableEq (Except ε α) := fun x y =>
  match x, y with
  | .ok a, .ok b => decidable_of_iff (a = b) (by simp)
  | .error e, .error f => decidable_of_iff (e = f) (by simp)
  | .ok _, .error _ => .isFalse (fun h => Except.noConfusion h)
  | .error _, .ok _ => .isFalse (fun h => Except.noConfusion h)

namespace Apitest

mutual
/-- A JSON/Python value as produced by `json.load`. -/
inductive Json : Type where
  | null : Json
  | bool (b : Bool) : Json
  | num (n : Int) : Json
  | str (s : String) : Json
  | arr (items : JsonList) : Json
  | obj (fields : JsonFields) : Json
  deriving DecidableEq

/-- The ordered elements of a JSON array. -/
inductive JsonList : Type where
  | nil : JsonList
  | cons (head : Json) (tail : JsonList) : JsonList
  deriving DecidableEq

/-- The ordered key/value bindings of a JSON object. -/
inductive JsonFields : Type where
  | nil : JsonFields
  | cons (key : String) (val : Json) (tail : JsonFields) : JsonFields
  deriving DecidableEq
end

/-- `dict.get k`: first binding of the key (keys of a parsed object are
pairwise distinct). -/
def fieldsGet : JsonFields → String → Option Json
  | .nil, _ => none
  | .cons k v rest, key => if k = key then some v else fieldsGet rest key

/-- Python truthiness of a JSON-shaped value (`bool(x)`). -/
def truthy : Json → Bool
  | .null => false
  | .bool b => b
  | .num n => n != 0
  | .str s => s != ""
  | .arr .nil => false
  | .arr (.cons _ _) => true
  | .obj .nil => false
  | .obj (.cons _ _ _) => true

/-- Python `x or y` (value-returning, truthiness-based). -/
def pyOr (x y : Json) : Json := if truthy x then x else y

/-- `node.get(k)` with Python `None` rendered as `Json.null`. -/
def jget (fields : JsonFields) (key : String) : Json :=
  (fieldsGet fields key).getD .null

/-- `node.get("nodeClass") == "NodeClassVariable"`. -/
def isVariableClass (v : Option Json) : Bool :=
  match v with
  | some (.str s) => s = "NodeClassVariable"
  | _ => false

/-- The guard of the append in `extract_variable_nodeids`:
`node.get("nodeClass") == "NodeClassVariable" and "nodeId" in node`. -/
def isVariableWithId (fields : JsonFields) : Bool :=
  isVariableClass (fieldsGet fields "nodeClass") && (fieldsGet fields "nodeId").isSome

/-- `node["nodeId"]` (only used under the guard, where the key is present). -/
def getNodeId (fields : JsonFields) : Json := jget fields "nodeId"

mutual
/-- `extract_variable_nodeids(node, result)`: appends to the accumulator the
`nodeId` of every dict whose `nodeClass` is `"NodeClassVariable"` and that has
a `nodeId` key, in depth-first pre-order, recursing into a dict's `children`
value when it is a list, and into every element of a list.
The dict case walks the bindings up to the first `"children"` key, which is
the same as `node.get("children")` (`extract_children_eq_get` below). -/
def extract_variable_nodeids : Json → List Json → List Json
  | .obj fields, result =>
      extract_children fields
        (if isVariableWithId fields then result ++ [getNodeId fields] else result)
  | .arr items, result => extract_list items result
  | _, result => result

/-- The `children = node.get("children"); if isinstance(children, list)` part
of `extract_variable_nodeids`, by direct scan of the bindings. -/
def extract_children : JsonFields → List Json → List Json
  | .nil, result => result
  | .cons k v rest, result =>
      if k = "children" then
        match v with
        | .arr cs => extract_list cs result
        | _ => result
      else extract_children rest result

/-- The `for child in children`/`for item in node` loops of
`extract_variable_nodeids`. -/
def extract_list : JsonList → List Json → List Json
  | .nil, result => result
  | .cons x xs, result => extract_list xs (extract_variable_nodeids x result)
end

/-- Embeds a Lean-level list of values back into a JSON array. -/
def jlist : List Json → JsonList
  | [] => .nil
  | x :: xs => .cons x (jlist xs)

/-- The exception `json.load` raises on malformed input. -/
inductive ParseError : Type where
  | jsonDecodeError
  deriving DecidableEq

/-- `TAG_JSON_PATH` constant of the script. -/
def TAG_JSON_PATH : String := "tags.json"

/-- `load_tags_from_json(json_path)`.  The file system's view of the path is
the explicit argument `file`; the result carries the value returned together
with the diagnostics printed. -/
def load_tags_from_json (json_path : String) (file : Option (Option Json)) :
    Except ParseError (Json × List String) :=
  match file with
  | none => .ok (.arr .nil, ["Tag json file not found: " ++ json_path])
  | some none => .error .jsonDecodeError
  | some (some data) =>
      let node_ids := extract_variable_nodeids data []
      if !node_ids.isEmpty then .ok (.arr (jlist node_ids), [])
      else
        match data with
        | .arr _ => .ok (data, [])
        | .obj fields =>
            .ok (pyOr (pyOr (jget fields "tags") (jget fields "node_ids")) (.arr .nil), [])
        | _ => .ok (.arr .nil, [])

/-- The subscribe message built in `on_open`: `node_ids = none` means the key
is absent from the sent JSON object. -/
structure SubscribeMsg where
  action : String
  node_ids : Option Json
  deriving DecidableEq

/-- `on_open(ws)`: loads tags from `TAG_JSON_PATH` and sends exactly one
subscribe message; the message is the returned value.  A parse error from the
loader propagates (`on_open` has no handler). -/
def on_open (file : Option (Option Json)) : Except ParseError SubscribeMsg :=
  match load_tags_from_json TAG_JSON_PATH file with
  | .error e => .error e
  | .ok (node_ids, _) =>
      if !truthy node_ids then .ok { action := "subscribe", node_ids := none }
      else .ok { action := "subscribe", node_ids := some node_ids }

/-- `REST_API_URL` constant of the script. -/
def REST_API_URL : String := "http://192.168.0.40:8080/api/v1"

/-- Outcome of one `requests.post(..., timeout=3)` call: a decoded JSON
response body, or the exception path (connection error / timeout after the
fixed 3-second limit). -/
inductive HttpOutcome : Type where
  | response (body : Json)
  | connectionError
  | timeoutError
  deriving DecidableEq

/-- What a REST call prints before returning; both functions always return
normally (the whole body is inside `try/except Exception`). -/
inductive CallReport : Type where
  | printedResponse (body : Json)
  | printedFailure
  deriving DecidableEq

/-- `read_node(node_id)`: POSTs `{"node_id": node_id}` to `/read`; prints the
decoded response on success, prints the failure otherwise, never raises. -/
def read_node (node_id : String) (outcome : HttpOutcome) : CallReport :=
  let _payload : Json := .obj (.cons "node_id" (.str node_id) .nil)
  match outcome with
  | .response body => .printedResponse body
  | .connectionError => .printedFailure
  | .timeoutError => .printedFailure

/-- `write_node(node_id, data_type, value)`: POSTs
`{"node_id", "data_type", "value"}` to `/write`; same failure handling as
`read_node`. -/
def write_node (node_id data_type : String) (value : Json) (outcome : HttpOutcome) :
    CallReport :=
  let _payload : Json :=
    .obj (.cons "node_id" (.str node_id)
      (.cons "data_type" (.str data_type) (.cons "value" value .nil)))
  match outcome with
  | .response body => .printedResponse body
  | .connectionError => .printedFailure
  | .timeoutError => .printedFailure

/-- Observable events of one `run_websocket` loop body, in order: start a
connection attempt (`ws.run_forever()` returns when the connection closes),
print the reconnect notice, sleep 5 seconds. -/
inductive WsEvent : Type where
  | connectAttempt
  | closedReport
  | sleep (seconds : Nat)
  deriving DecidableEq

/-- The event trace of the first `n` iterations of the unbounded
`while True` loop in `run_websocket` (each connection eventually closing). -/
def run_websocket_trace : Nat → List WsEvent
  | 0 => []
  | n + 1 => .connectAttempt :: .closedReport :: .sleep 5 :: run_websocket_trace n

mutual
/-- Modelled from the spec wording for comparison with the code: collect, in
depth-first pre-order, the `nodeId` of every descriptor whose `nodeClass` is
the variable category, descending into `children` sequences; a pure function
with no accumulator. -/
def preorder_variable_ids : Json → List Json
  | .obj fields =>
      (if isVariableWithId fields then [getNodeId fields] else []) ++
        preorder_children fields
  | .arr items => preorder_list items
  | _ => []

/-- Pre-order collection over the `children` binding of a descriptor. -/
def preorder_children : JsonFields → List Json
  | .nil => []
  | .cons k v rest =>
      if k = "children" then
        match v with
        | .arr cs => preorder_list cs
        | _ => []
      else preorder_children rest

/-- Pre-order collection over a sequence of descriptors. -/
def preorder_list : JsonList → List Json
  | .nil => []
  | .cons x xs => preorder_variable_ids x ++ preorder_list xs
end

/-- `true` on every JSON value except an array. -/
def notArr : Json → Bool
  | .arr _ => false
  | _ => true

/-- `true` exactly on JSON strings. -/
def isStr : Json → Bool
  | .str _ => true
  | _ => false

/-- A flat sequence of node-id strings. -/
def allStrings : JsonList → Bool
  | .nil => true
  | .cons x xs => isStr x && allStrings xs

/-- `true` on JSON values that are neither arrays nor objects. -/
def isScalarData : Json → Bool
  | .arr _ => false
  | .obj _ => false
  | _ => true

/-- A tag-tree input (a sequence of one mapping) with no variable
descriptor. -/
def flatObjectTree : Json :=
  .arr (.cons (.obj (.cons "nodeClass" (.str "NodeClassObject") .nil)) .nil)

/-- Variable descriptor `c`, a leaf. -/
def nestedVarC : Json :=
  .obj (.cons "nodeClass" (.str "NodeClassVariable") (.cons "nodeId" (.str "c") .nil))

/-- Variable descriptor `b` with child `c`. -/
def nestedVarB : Json :=
  .obj (.cons "nodeClass" (.str "NodeClassVariable")
    (.cons "nodeId" (.str "b") (.cons "children" (.arr (.cons nestedVarC .nil)) .nil)))

/-- Variable descriptor `a` with child `b`: a tree nested three deep. -/
def nestedVarTree : Json :=
  .obj (.cons "nodeClass" (.str "NodeClassVariable")
    (.cons "nodeId" (.str "a") (.cons "children" (.arr (.cons nestedVarB .nil)) .nil)))

/-- Mapping with an empty `tags` list and a non-empty `node_ids` list. -/
def tagsEmptyFields : JsonFields :=
  .cons "tags" (.arr .nil) (.cons "node_ids" (.arr (.cons (.str "y") .nil)) .nil)

/-- Mapping with `tags` bound to `["x"]`. -/
def tagsXFields : JsonFields :=
  .cons "tags" (.arr (.cons (.str "x") .nil)) .nil

/-- Variable descriptor with a `nodeId`, used as a child. -/
def innerVarChild : Json :=
  .obj (.cons "nodeClass" (.str "NodeClassVariable") (.cons "nodeId" (.str "inner") .nil))

/-- Variable-class descriptor without a `nodeId` key, with one variable
child. -/
def varNoIdFields : JsonFields :=
  .cons "nodeClass" (.str "NodeClassVariable")
    (.cons "children" (.arr (.cons innerVarChild .nil)) .nil)

/-- The flat list `["a","b"]`. -/
def abList : JsonList := .cons (.str "a") (.cons (.str "b") .nil)

/-- The node-id list `["n1","n2"]`. -/
def n1n2List : JsonList := .cons (.str "n1") (.cons (.str "n2") .nil)

/-- Step lemma: the object case of the walk, given the children fact. -/
theorem extract_obj_step (fields : JsonFields) (acc : List Json)
    (hch : ∀ a, extract_children fields a = a ++ preorder_children fields) :
    extract_variable_nodeids (.obj fields) acc =
      acc ++ preorder_variable_ids (.obj fields) := by
  simp only [extract_variable_nodeids, preorder_variable_ids]
  cases h : isVariableWithId fields <;> simp [h, hch]

/-- Step lemma: a binding whose value is an array. -/
theorem extract_children_arr_step (k : String) (cs : JsonList) (rest : JsonFields)
    (acc : List Json)
    (hcs : ∀ a, extract_list cs a = a ++ preorder_list cs)
    (hrest : ∀ a, extract_children rest a = a ++ preorder_children rest) :
    extract_children (.cons k (.arr cs) rest) acc =
      acc ++ preorder_children (.cons k (.arr cs) rest) := by
  simp only [extract_children, preorder_children]
  by_cases h : k = "children" <;> simp [h, hcs, hrest]

/-- Step lemma: a binding whose value is not an array. -/
theorem extract_children_skip_step (k : String) (v : Json) (rest : JsonFields)
    (acc : List Json) (hv : notArr v = true)
    (hrest : ∀ a, extract_children rest a = a ++ preorder_children rest) :
    extract_children (.cons k v rest) acc =
      acc ++ preorder_children (.cons k v rest) := by
  cases v with
  | arr cs => simp [notArr] at hv
  | null =>
      simp only [extract_children, preorder_children]
      by_cases h : k = "children" <;> simp [h, hrest]
  | bool b =>
      simp only [extract_children, preorder_children]
      by_cases h : k = "children" <;> simp [h, hrest]
  | num n =>
      simp only [extract_children, preorder_children]
      by_cases h : k = "children" <;> simp [h, hrest]
  | str s =>
      simp only [extract_children, preorder_children]
      by_cases h : k = "children" <;> simp [h, hrest]
  | obj f =>
      simp only [extract_children, preorder_children]
      by_cases h : k = "children" <;> simp [h, hrest]

/-- Step lemma: one element of a sequence. -/
theorem extract_list_cons_step (x : Json) (xs : JsonList) (acc : List Json)
    (hx : ∀ a, extract_variable_nodeids x a = a ++ preorder_variable_ids x)
    (hxs : ∀ a, extract_list xs a = a ++ preorder_list xs) :
    extract_list (.cons x xs) acc = acc ++ preorder_list (.cons x xs) := by
  simp only [extract_list, preorder_list]
  rw [hxs, hx, List.append_assoc]

mutual
/-- The accumulator-passing walk of the code equals the pure pre-order
collection of the spec: `extract_variable_nodeids node acc` is `acc`
followed by the pre-order variable `nodeId`s of `node`. -/
theorem extract_eq_preorder : ∀ (node : Json) (acc : List Json),
    extract_variable_nodeids node acc = acc ++ preorder_variable_ids node
  | .null, acc => by simp [extract_variable_nodeids, preorder_variable_ids]
  | .bool _, acc => by simp [extract_variable_nodeids, preorder_variable_ids]
  | .num _, acc => by simp [extract_variable_nodeids, preorder_variable_ids]
  | .str _, acc => by simp [extract_variable_nodeids, preorder_variable_ids]
  | .arr items, acc => extract_list_eq_preorder items acc
  | .obj fields, acc =>
      extract_obj_step fields acc (fun a => extract_children_eq_preorder fields a)

/-- Mutual companion of `extract_eq_preorder` for binding lists. -/
theorem extract_children_eq_preorder : ∀ (fields : JsonFields) (acc : List Json),
    extract_children fields acc = acc ++ preorder_children fields
  | .nil, _ => by simp [extract_children, preorder_children]
  | .cons k (.arr cs) rest, acc =>
      extract_children_arr_step k cs rest acc
        (fun a => extract_list_eq_preorder cs a)
        (fun a => extract_children_eq_preorder rest a)
  | .cons k .null rest, acc =>
      extract_children_skip_step k .null rest acc rfl
        (fun a => extract_children_eq_preorder rest a)
  | .cons k (.bool b) rest, acc =>
      extract_children_skip_step k (.bool b) rest acc rfl
        (fun a => extract_children_eq_preorder rest a)
  | .cons k (.num n) rest, acc =>
      extract_children_skip_step k (.num n) rest acc rfl
        (fun a => extract_children_eq_preorder rest a)
  | .cons k (.str s) rest, acc =>
      extract_children_skip_step k (.str s) rest acc rfl
        (fun a => extract_children_eq_preorder rest a)
  | .cons k (.obj f) rest, acc =>
      extract_children_skip_step k (.obj f) rest acc rfl
        (fun a => extract_children_eq_preorder rest a)

/-- Mutual companion of `extract_eq_preorder` for value sequences. -/
theorem extract_list_eq_preorder : ∀ (items : JsonList) (acc : List Json),
    extract_list items acc = acc ++ preorder_list items
  | .nil, _ => by simp [extract_list, preorder_list]
  | .cons x xs, acc =>
      extract_list_cons_step x xs acc
        (fun a => extract_eq_preorder x a)
        (fun a => extract_list_eq_preorder xs a)
end

/-- Step lemma for `extract_children_eq_get`. -/
theorem extract_children_get_step (k : String) (v : Json) (rest : JsonFields)
    (acc : List Json)
    (hrest : extract_children rest acc =
      (match fieldsGet rest "children" with
        | some (.arr cs) => extract_list cs acc
        | _ => acc)) :
    extract_children (.cons k v rest) acc =
      (match fieldsGet (.cons k v rest) "children" with
        | some (.arr cs) => extract_list cs acc
        | _ => acc) := by
  cases v with
  | arr cs =>
      rw [extract_children.eq_2]
      simp only [fieldsGet]
      by_cases h : k = "children" <;> simp [h, hrest]
  | null =>
      rw [extract_children.eq_3 acc k .null rest (fun _ h => Json.noConfusion h)]
      simp only [fieldsGet]
      by_cases h : k = "children" <;> simp [h, hrest]
  | bool b =>
      rw [extract_children.eq_3 acc k (.bool b) rest (fun _ h => Json.noConfusion h)]
      simp only [fieldsGet]
      by_cases h : k = "children" <;> simp [h, hrest]
  | num n =>
      rw [extract_children.eq_3 acc k (.num n) rest (fun _ h => Json.noConfusion h)]
      simp only [fieldsGet]
      by_cases h : k = "children" <;> simp [h, hrest]
  | str s =>
      rw [extract_children.eq_3 acc k (.str s) rest (fun _ h => Json.noConfusion h)]
      simp only [fieldsGet]
      by_cases h : k = "children" <;> simp [h, hrest]
  | obj f =>
      rw [extract_children.eq_3 acc k (.obj f) rest (fun _ h => Json.noConfusion h)]
      simp only [fieldsGet]
      by_cases h : k = "children" <;> simp [h, hrest]

/-- `extract_children` walks the bindings to the first `"children"` key:
that is exactly dispatching on `node.get("children")`. -/
theorem extract_children_eq_get : ∀ (fields : JsonFields) (acc : List Json),
    extract_children fields acc =
      (match fieldsGet fields "children" with
        | some (.arr cs) => extract_list cs acc
        | _ => acc)
  | .nil, _ => rfl
  | .cons k v rest, acc =>
      extract_children_get_step k v rest acc (extract_children_eq_get rest acc)

/-- Step lemma for `preorder_children_eq_get`. -/
theorem preorder_children_get_step (k : String) (v : Json) (rest : JsonFields)
    (hrest : preorder_children rest =
      (match fieldsGet rest "children" with
        | some (.arr cs) => preorder_list cs
        | _ => [])) :
    preorder_children (.cons k v rest) =
      (match fieldsGet (.cons k v rest) "children" with
        | some (.arr cs) => preorder_list cs
        | _ => []) := by
  cases v with
  | arr cs =>
      rw [preorder_children.eq_2]
      simp only [fieldsGet]
      by_cases h : k = "children" <;> simp [h, hrest]
  | null =>
      rw [preorder_children.eq_3 k .null rest (fun _ h => Json.noConfusion h)]
      simp only [fieldsGet]
      by_cases h : k = "children" <;> simp [h, hrest]
  | bool b =>
      rw [preorder_children.eq_3 k (.bool b) rest (fun _ h => Json.noConfusion h)]
      simp only [fieldsGet]
      by_cases h : k = "children" <;> simp [h, hrest]
  | num n =>
      rw [preorder_children.eq_3 k (.num n) rest (fun _ h => Json.noConfusion h)]
      simp only [fieldsGet]
      by_cases h : k = "children" <;> simp [h, hrest]
  | str s =>
      rw [preorder_children.eq_3 k (.str s) rest (fun _ h => Json.noConfusion h)]
      simp only [fieldsGet]
      by_cases h : k = "children" <;> simp [h, hrest]
  | obj f =>
      rw [preorder_children.eq_3 k (.obj f) rest (fun _ h => Json.noConfusion h)]
      simp only [fieldsGet]
      by_cases h : k = "children" <;> simp [h, hrest]

/-- Same fact for the spec-side collection. -/
theorem preorder_children_eq_get : ∀ (fields : JsonFields),
    preorder_children fields =
      (match fieldsGet fields "children" with
        | some (.arr cs) => preorder_list cs
        | _ => [])
  | .nil => rfl
  | .cons k v rest =>
      preorder_children_get_step k v rest (preorder_children_eq_get rest)

/-- Step lemma: a string contributes nothing to the walk. -/
theorem preorder_list_str_step (s : String) (xs : JsonList)
    (hxs : preorder_list xs = []) :
    preorder_list (.cons (.str s) xs) = [] := by
  rw [preorder_list.eq_2, hxs]
  simp [preorder_variable_ids]

/-- A sequence of strings has no variable node ids. -/
theorem preorder_list_of_allStrings : ∀ (items : JsonList),
    allStrings items = true → preorder_list items = []
  | .nil, _ => rfl
  | .cons (.str s) xs, h =>
      preorder_list_str_step s xs
        (preorder_list_of_allStrings xs (by simpa [allStrings, isStr] using h))
  | .cons .null _, h => by simp [allStrings, isStr] at h
  | .cons (.bool _) _, h => by simp [allStrings, isStr] at h
  | .cons (.num _) _, h => by simp [allStrings, isStr] at h
  | .cons (.arr _) _, h => by simp [allStrings, isStr] at h
  | .cons (.obj _) _, h => by simp [allStrings, isStr] at h

/-- Claim C4: content present but not valid JSON makes the loader fail with
the parse error, the failure reaches `on_open` unsuppressed, and it is
distinct from the missing-file case, which never produces an error. -/
theorem c4_parse_error_propagates (path : String) :
    load_tags_from_json path (some none) = .error .jsonDecodeError ∧
    on_open (some none) = .error .jsonDecodeError ∧
    ∀ e : ParseError, load_tags_from_json path none ≠ .error e := by
  refine ⟨rfl, rfl, ?_⟩
  intro e h
  exact Except.noConfusion h

/-- Witness for C4 at the fixed tag path. -/
theorem c4_witness :
    load_tags_from_json "tags.json" (some none) = .error .jsonDecodeError ∧
    on_open (some none) = .error .jsonDecodeError :=
  ⟨(c4_parse_error_propagates "tags.json").1, (c4_parse_error_propagates "tags.json").2.1⟩

/-- Claim C5: a missing file makes the loader return the empty sequence with
a diagnostic, without raising. -/
theorem c5_missing_file (path : String) :
    load_tags_from_json path none =
      .ok (.arr .nil, ["Tag json file not found: " ++ path]) := rfl

/-- Claim C6: a connection error or a timeout makes a REST call report the
failure and return normally; no exception escapes either call. -/
theorem c6_rest_failure_returns (node_id data_type : String) (value : Json) :
    read_node node_id .connectionError = .printedFailure ∧
    read_node node_id .timeoutError = .printedFailure ∧
    write_node node_id data_type value .connectionError = .printedFailure ∧
    write_node node_id data_type value .timeoutError = .printedFailure :=
  ⟨rfl, rfl, rfl, rfl⟩

/-- Claim C10: file content that is neither a mapping nor a sequence makes
the loader return the empty sequence without raising. -/
theorem c10_scalar_content (path : String) (data : Json)
    (h : isScalarData data = true) :
    load_tags_from_json path (some (some data)) = .ok (.arr .nil, []) := by
  cases data with
  | null => rfl
  | bool b => rfl
  | num n => rfl
  | str s => rfl
  | arr items => simp [isScalarData] at h
  | obj fields => simp [isScalarData] at h

/-- Witness for C10 at a string content. -/
theorem c10_witness :
    load_tags_from_json "tags.json" (some (some (.str "hello"))) =
      .ok (.arr .nil, []) :=
  c10_scalar_content "tags.json" (.str "hello") (by decide)

/-- Claim C8: a flat sequence of node-id strings is returned unchanged. -/
theorem c8_flat_list (path : String) (items : JsonList)
    (h : allStrings items = true) :
    load_tags_from_json path (some (some (.arr items))) = .ok (.arr items, []) := by
  have hp : preorder_variable_ids (.arr items) = preorder_list items :=
    preorder_variable_ids.eq_2 items
  have hw : preorder_variable_ids (.arr items) = [] := by
    rw [hp]
    exact preorder_list_of_allStrings items h
  have he : extract_variable_nodeids (.arr items) [] = [] := by
    have := extract_eq_preorder (.arr items) []
    rw [hw] at this
    simpa using this
  simp [load_tags_from_json, he]

/-- Witness for C8 at `["a","b"]`. -/
theorem c8_witness :
    load_tags_from_json "tags.json" (some (some (.arr abList))) =
      .ok (.arr abList, []) :=
  c8_flat_list "tags.json" abList (by decide)

/-- Claim C1 as stated is false: `flatObjectTree` is a tag-tree input (a
sequence of mappings) whose pre-order variable-nodeId sequence is empty, yet
the loader returns the original sequence — one mapping — rather than that
(empty) sequence. -/
theorem c1_counterexample :
    preorder_variable_ids flatObjectTree = [] ∧
    load_tags_from_json TAG_JSON_PATH (some (some flatObjectTree)) =
      .ok (flatObjectTree, []) ∧
    flatObjectTree ≠ .arr (jlist (preorder_variable_ids flatObjectTree)) :=
  ⟨by decide, by decide, by decide⟩

/-- Claim C1 amended: for every tag-tree input whose depth-first pre-order
sequence of variable node ids is non-empty, the loader returns exactly that
sequence, regardless of nesting depth. -/
theorem c1_loader_preorder (path : String) (data : Json)
    (h : preorder_variable_ids data ≠ []) :
    load_tags_from_json path (some (some data)) =
      .ok (.arr (jlist (preorder_variable_ids data)), []) := by
  have he : extract_variable_nodeids data [] = preorder_variable_ids data := by
    simpa using extract_eq_preorder data []
  have hne : (extract_variable_nodeids data []).isEmpty = false := by
    rw [he]
    simpa [List.isEmpty_iff] using h
  simp [load_tags_from_json, he, hne, h]

/-- Witness for C1 at a tree of variable descriptors nested three deep. -/
theorem c1_witness :
    preorder_variable_ids nestedVarTree = [.str "a", .str "b", .str "c"] ∧
    load_tags_from_json "tags.json" (some (some nestedVarTree)) =
      .ok (.arr (jlist (preorder_variable_ids nestedVarTree)), []) :=
  ⟨by decide, c1_loader_preorder "tags.json" nestedVarTree (by decide)⟩

/-- Claim C3 as stated is false: in `tagsEmptyFields` the key `tags` is
present (bound to the empty list), so the claim demands the empty list back,
but the loader falls through Python's truthiness-based `or` and returns the
value under `node_ids` instead. -/
theorem c3_counterexample :
    fieldsGet tagsEmptyFields "tags" = some (.arr .nil) ∧
    preorder_variable_ids (.obj tagsEmptyFields) = [] ∧
    load_tags_from_json TAG_JSON_PATH (some (some (.obj tagsEmptyFields))) =
      .ok (.arr (.cons (.str "y") .nil), []) ∧
    Json.arr (.cons (.str "y") .nil) ≠ .arr .nil :=
  ⟨by decide, by decide, by decide, by decide⟩

/-- Claim C3 amended: for a mapping from which the walk collects nothing,
the loader returns the value under `tags` if that key is present with a
truthy value, else the value under `node_ids` if present with a truthy
value, else the empty sequence (an absent key reads as `None`, which is
falsy). -/
theorem c3_mapping_fallback (path : String) (fields : JsonFields)
    (hwalk : preorder_variable_ids (.obj fields) = []) :
    (truthy (jget fields "tags") = true →
        load_tags_from_json path (some (some (.obj fields))) =
          .ok (jget fields "tags", [])) ∧
    (truthy (jget fields "tags") = false → truthy (jget fields "node_ids") = true →
        load_tags_from_json path (some (some (.obj fields))) =
          .ok (jget fields "node_ids", [])) ∧
    (truthy (jget fields "tags") = false → truthy (jget fields "node_ids") = false →
        load_tags_from_json path (some (some (.obj fields))) =
          .ok (.arr .nil, [])) := by
  have he : extract_variable_nodeids (.obj fields) [] = [] := by
    have := extract_eq_preorder (.obj fields) []
    rw [hwalk] at this
    simpa using this
  refine ⟨fun h1 => ?_, fun h1 h2 => ?_, fun h1 h2 => ?_⟩ <;>
    simp [load_tags_from_json, he, pyOr, h1]
  · simp [h2]
  · simp [h2]

/-- Witness for C3 at the spec's own example `{"tags": ["x"]}`. -/
theorem c3_witness :
    load_tags_from_json "tags.json" (some (some (.obj tagsXFields))) =
      .ok (.arr (.cons (.str "x") .nil), []) := by
  have h := (c3_mapping_fallback "tags.json" tagsXFields (by decide)).1 (by decide)
  simpa [jget, fieldsGet] using h

/-- Claim C9: a variable-class descriptor without a `nodeId` key contributes
nothing, yet the walk still descends into its `children`; and in general the
walk descends into the `children` of every descriptor, variable-class ones
included, after appending the descriptor's own id when present. -/
theorem c9_no_id_still_descends (fields : JsonFields) (cs : JsonList)
    (acc : List Json) (hch : fieldsGet fields "children" = some (.arr cs)) :
    (isVariableClass (fieldsGet fields "nodeClass") = true →
        fieldsGet fields "nodeId" = none →
        extract_variable_nodeids (.obj fields) acc = extract_list cs acc) ∧
    extract_variable_nodeids (.obj fields) acc =
      extract_list cs
        (if isVariableWithId fields then acc ++ [getNodeId fields] else acc) := by
  have h2 : extract_variable_nodeids (.obj fields) acc =
      extract_list cs
        (if isVariableWithId fields then acc ++ [getNodeId fields] else acc) := by
    rw [extract_variable_nodeids.eq_1, extract_children_eq_get, hch]
  refine ⟨fun hvc hid => ?_, h2⟩
  have hfalse : isVariableWithId fields = false := by
    simp [isVariableWithId, hid]
  rw [h2, hfalse]
  simp

/-- Witness for C9: a variable descriptor with no `nodeId` collects exactly
the id of the variable nested under it. -/
theorem c9_witness :
    extract_variable_nodeids (.obj varNoIdFields) [] =
      extract_list (.cons innerVarChild .nil) [] ∧
    extract_variable_nodeids (.obj varNoIdFields) [] = [.str "inner"] :=
  ⟨(c9_no_id_still_descends varNoIdFields (.cons innerVarChild .nil) []
      (by decide)).1 (by decide) (by decide),
   by decide⟩

/-- Claim C2: when the loader yields a sequence, `on_open` sends exactly one
subscribe message — without a `node_ids` key when the sequence is empty,
with the sequence unchanged otherwise. -/
theorem c2_on_open_message (file : Option (Option Json)) (l : JsonList)
    (logs : List String)
    (h : load_tags_from_json TAG_JSON_PATH file = .ok (.arr l, logs)) :
    on_open file =
      .ok ⟨"subscribe", (if l = .nil then none else some (.arr l))⟩ := by
  cases l with
  | nil => simp [on_open, h, truthy]
  | cons x xs => simp [on_open, h, truthy]

/-- Witness for C2 at the flat file `["n1","n2"]`. -/
theorem c2_witness :
    on_open (some (some (.arr n1n2List))) =
      .ok { action := "subscribe", node_ids := some (.arr n1n2List) } := by
  have h := c2_on_open_message (some (some (.arr n1n2List))) n1n2List [] (by decide)
  simpa [n1n2List] using h

/-- Dropping `j` full iterations of the reconnect loop's trace leaves the
trace of the remaining iterations. -/
theorem run_websocket_trace_drop : ∀ (j n : Nat), j ≤ n →
    (run_websocket_trace n).drop (3*j) = run_websocket_trace (n - j) := by
  intro j
  induction j with
  | zero => intro n _; simp
  | succ j ih =>
      intro n hj
      cases n with
      | zero => omega
      | succ n =>
          have e : 3 * (j+1) = 3*j + 1 + 1 + 1 := by ring
          rw [e]
          simp only [run_websocket_trace, List.drop_succ_cons]
          have e2 : n + 1 - (j + 1) = n - j := by omega
          rw [e2]
          exact ih n (by omega)

/-- Each iteration of the loop contributes one connection attempt. -/
theorem run_websocket_trace_count : ∀ (n : Nat),
    (run_websocket_trace n).count .connectAttempt = n := by
  intro n
  induction n with
  | zero => rfl
  | succ n ih =>
      have b1 : (WsEvent.sleep 5 == WsEvent.connectAttempt) = false := by decide
      have b2 : (WsEvent.closedReport == WsEvent.connectAttempt) = false := by decide
      have b3 : (WsEvent.connectAttempt == WsEvent.connectAttempt) = true := by decide
      simp [run_websocket_trace, List.count_cons, ih, b1, b2, b3]

/-- Claim C7: the reconnect loop reports the close, sleeps exactly 5 seconds
and retries, forever.  Its trace restricted to `n` closes has `n` connection
attempts (so no retry bound); the events of iteration `j` are attempt,
close report, 5-second sleep, followed by the rest; and every reconnect
attempt (the `j+1`-st connection) is immediately preceded by the 5-second
sleep. -/
theorem c7_reconnect_loop :
    (∀ n : Nat, (run_websocket_trace n).count .connectAttempt = n) ∧
    (∀ n j : Nat, j < n →
        (run_websocket_trace n).drop (3*j) =
          .connectAttempt :: .closedReport :: .sleep 5 ::
            (run_websocket_trace n).drop (3*j+3)) ∧
    (∀ n j : Nat, j + 1 < n →
        (run_websocket_trace n)[3*j+2]? = some (.sleep 5) ∧
        (run_websocket_trace n)[3*j+3]? = some .connectAttempt) := by
  have htriple : ∀ n j : Nat, j < n →
      (run_websocket_trace n).drop (3*j) =
        .connectAttempt :: .closedReport :: .sleep 5 ::
          (run_websocket_trace n).drop (3*j+3) := by
    intro n j hj
    have h1 : (run_websocket_trace n).drop (3*j) = run_websocket_trace (n - j) :=
      run_websocket_trace_drop j n (by omega)
    have e3 : 3*j + 3 = 3 * (j+1) := by ring
    have h2 : (run_websocket_trace n).drop (3*j+3) =
        run_websocket_trace (n - (j+1)) := by
      rw [e3]
      exact run_websocket_trace_drop (j+1) n (by omega)
    rw [h1, h2]
    have e4 : n - j = (n - (j+1)) + 1 := by omega
    rw [e4]
    simp only [run_websocket_trace]
  refine ⟨run_websocket_trace_count, htriple, ?_⟩
  intro n j hj
  have ht := htriple n j (by omega)
  have ht1 := htriple n (j+1) (by omega)
  constructor
  · have hg : (run_websocket_trace n)[3*j+2]? =
        ((run_websocket_trace n).drop (3*j))[2]? := by
      rw [List.getElem?_drop]
    rw [hg, ht]
    simp
  · have e5 : 3*j + 3 = 3 * (j+1) := by ring
    have hg : (run_websocket_trace n)[3*j+3]? =
        ((run_websocket_trace n).drop (3*(j+1)))[0]? := by
      rw [List.getElem?_drop, e5]
      simp
    rw [hg, ht1]
    simp

/-- Witness for C7: in the trace of four closes, the second reconnect is
preceded by the 5-second sleep, and four attempts occur. -/
theorem c7_witness :
    (run_websocket_trace 4).count .connectAttempt = 4 ∧
    (run_websocket_trace 4)[3*1+2]? = some (.sleep 5) ∧
    (run_websocket_trace 4)[3*1+3]? = some .connectAttempt := by
  have h := c7_reconnect_loop.2.2 4 1 (by decide)
  exact ⟨c7_reconnect_loop.1 4, h.1, h.2⟩

end Apitest
